import Mathlib

/-!
Verification of the home-location identification pipeline
(`mawpy/utilities/identify_home.py`, class `HomeLocationIdentifier`).

The pipeline is embedded shallowly:

* a pandas DataFrame of pings is a `List Ping`;
* census tracts (shapely polygons) are modelled as axis-aligned rectangles
  `Zone`; the shapely `within` predicate (interior containment, boundary
  excluded) becomes strict inequality on the rectangle bounds;
* `pd.to_datetime(unit='s').dt.hour` is `t / 3600 % 24` and `.dt.date` is
  the day index `t / 86400` (timestamps are non-negative epoch seconds);
* `groupby` (which sorts its keys ascending) is modelled by building the
  sorted duplicate-free key list and counting per key;
* `merge(..., on='user_ID', how='left')` against the one-row-per-user
  coverage table is a lookup with `find?`; a missing user yields `none`
  (pandas NaN), and `visit_count >= NaN` is false, as in pandas;
* `gpd.sjoin(..., how='left', predicate='within')` yields one output row
  per matching polygon, and a single row with a missing tract id when no
  polygon matches;
* `groupby([...]).size()` drops rows whose key contains NaN, as pandas
  does by default.
-/

/-- One row of the input CSV: user id, epoch-second timestamp and the
original coordinates used by `spatial_join`. -/
structure Ping where
  user_ID : Nat
  unix_start_t : Nat
  orig_long : Int
  orig_lat : Int
deriving DecidableEq, Repr

/-- Hour of day of `pd.to_datetime(t, unit='s')`. -/
def hourOf (t : Nat) : Nat := t / 3600 % 24

/-- Calendar-date index of `pd.to_datetime(t, unit='s').dt.date`. -/
def dateOf (t : Nat) : Nat := t / 86400

/-- A census tract: unique GEOID plus a rectangular boundary.  The tract
contains a point when the point lies strictly inside the rectangle,
matching the `within` predicate (boundary points are not within). -/
structure Zone where
  geoid : Nat
  xmin : Int
  xmax : Int
  ymin : Int
  ymax : Int
deriving DecidableEq, Repr

/-- Point-in-polygon test used by the spatial join. -/
def Zone.containsPoint (z : Zone) (x y : Int) : Bool :=
  decide (z.xmin < x) && decide (x < z.xmax) && decide (z.ymin < y) && decide (y < z.ymax)

/-- Night classification of an hour, `filter_night_time_data` lines 58-61:
`hour >= start && hour < end` when `start < end`, otherwise
`hour >= start || hour < end`. -/
def isNight (start_hour end_hour h : Nat) : Bool :=
  if start_hour < end_hour then decide (start_hour ≤ h) && decide (h < end_hour)
  else decide (start_hour ≤ h) || decide (h < end_hour)

/-- Model of `filter_night_time_data`: keep the rows whose hour is
classified as night. -/
def filter_night_time_data (start_hour end_hour : Nat) (df : List Ping) : List Ping :=
  df.filter (fun p => isNight start_hour end_hour (hourOf p.unix_start_t))

/-- The literal `min_visits_table` of `__init__` lines 39-42:
`number_of_days` 5..21 paired with the listed `min_visits` values. -/
def min_visits_table : List (Nat × Nat) :=
  (List.range' 5 17).zip [2, 2, 2, 2, 2, 3, 3, 3, 3, 3, 4, 4, 4, 4, 4, 4, 4]

/-- The `merge(..., on='number_of_days', how='left')` against
`min_visits_table`: a lookup returning `none` (NaN) off the table. -/
def lookupTable (d : Nat) : Option Nat :=
  (min_visits_table.find? (fun e => e.1 == d)).map Prod.snd

/-- Ceiling of `d / 7` on non-negative integers, as computed by
`math.ceil(row['number_of_days'] / 7)`. -/
def ceilDiv7 (d : Nat) : Nat := (d + 6) / 7

/-- The `min_visits` value `calculate_days_available` attaches to a user
with `d` observation days: the `apply` on lines 78-81 overrides the table
with `ceil(d/7)` for `d > 21`, and `fillna(0).astype(int)` on line 84
turns the remaining NaNs into the integer 0. -/
def minVisitsOf (d : Nat) : Nat :=
  if 21 < d then ceilDiv7 d else (lookupTable d).getD 0

/-- One row of `self.days_available` after `calculate_days_available`. -/
structure CoverageRow where
  user_ID : Nat
  number_of_days : Nat
  min_visits : Nat
deriving DecidableEq, Repr

/-- Insert a key into an ascending duplicate-free list, keeping it
ascending and duplicate-free.  Used to model the sorted distinct group
keys produced by `groupby`. -/
def insertSortedDistinct (x : Nat) : List Nat → List Nat
  | [] => [x]
  | y :: ys =>
    if x < y then x :: y :: ys
    else if x = y then y :: ys
    else y :: insertSortedDistinct x ys

/-- The ascending duplicate-free list of user ids of a ping list: the
group keys of `night_data.groupby('user_ID')`. -/
def sortedUsers (pings : List Ping) : List Nat :=
  pings.foldr (fun p acc => insertSortedDistinct p.user_ID acc) []

/-- The `nunique` of the `date` column within one user's group. -/
def nuniqueDates (pings : List Ping) (u : Nat) : Nat :=
  (((pings.filter (fun p => p.user_ID == u)).map (fun p => dateOf p.unix_start_t)).dedup).length

/-- Model of `calculate_days_available` lines 70-84: per user (in
`groupby` key order) the distinct-date count and the derived
`min_visits`. -/
def calculate_days_available (night_data : List Ping) : List CoverageRow :=
  (sortedUsers night_data).map (fun u =>
    { user_ID := u
      number_of_days := nuniqueDates night_data u
      min_visits := minVisitsOf (nuniqueDates night_data u) })

/-- The tracts whose polygon contains a ping's point, in tract order. -/
def sjoinMatches (tracts : List Zone) (p : Ping) : List Zone :=
  tracts.filter (fun z => z.containsPoint p.orig_long p.orig_lat)

/-- The `sjoin(..., how='left', predicate='within')` rows produced by one
left row: one row per containing tract, or a single row with NaN GEOID
(`none`) when no tract contains the point. -/
def sjoinRows (tracts : List Zone) (p : Ping) : List (Ping × Option Nat) :=
  match sjoinMatches tracts p with
  | [] => [(p, none)]
  | ms => ms.map (fun z => (p, some z.geoid))

/-- Model of `spatial_join` lines 95-100: left join of the nighttime
pings with the tracts. -/
def spatial_join (night_data : List Ping) (tracts : List Zone) : List (Ping × Option Nat) :=
  night_data.flatMap (sjoinRows tracts)

/-- Strict lexicographic order on `(user_ID, GEOID)` keys. -/
def keyLt (a b : Nat × Nat) : Prop := a.1 < b.1 ∨ (a.1 = b.1 ∧ a.2 < b.2)

instance : DecidableRel keyLt := fun a b => by
  unfold keyLt; infer_instance

/-- Insert a `(user_ID, GEOID)` key into an ascending duplicate-free key
list. -/
def insertKeySorted (x : Nat × Nat) : List (Nat × Nat) → List (Nat × Nat)
  | [] => [x]
  | y :: ys =>
    if keyLt x y then x :: y :: ys
    else if x = y then y :: ys
    else y :: insertKeySorted x ys

/-- The sorted distinct `(user_ID, GEOID)` group keys of
`joined.groupby(['user_ID', 'GEOID'])`; rows with NaN GEOID are dropped,
as `groupby` does by default. -/
def matchedKeys (joined : List (Ping × Option Nat)) : List (Nat × Nat) :=
  joined.foldr
    (fun r acc =>
      match r.2 with
      | some g => insertKeySorted (r.1.user_ID, g) acc
      | none => acc)
    []

/-- The `size()` of one `(user_ID, GEOID)` group. -/
def countKey (joined : List (Ping × Option Nat)) (k : Nat × Nat) : Nat :=
  (joined.filter (fun r => r.1.user_ID == k.1 && r.2 == some k.2)).length

/-- One row of `visit_counts` after the merge on line 113.  The merge is
`how='left'`, so a user absent from `days_available` would get NaN
(`none`) in the joined columns. -/
structure VisitRow where
  user_ID : Nat
  geoid : Nat
  visit_count : Nat
  number_of_days : Option Nat
  min_visits : Option Nat
deriving DecidableEq, Repr

/-- Model of `count_visits` lines 112-113: group the joined rows by
`(user_ID, GEOID)`, count each group, and left-merge each row with the
(unique) `days_available` row of its user. -/
def count_visits (days_available : List CoverageRow) (joined : List (Ping × Option Nat)) :
    List VisitRow :=
  (matchedKeys joined).map (fun k =>
    match days_available.find? (fun c => c.user_ID == k.1) with
    | some c =>
      { user_ID := k.1, geoid := k.2, visit_count := countKey joined k
        number_of_days := some c.number_of_days, min_visits := some c.min_visits }
    | none =>
      { user_ID := k.1, geoid := k.2, visit_count := countKey joined k
        number_of_days := none, min_visits := none })

/-- The row filter on line 127, `visit_count >= min_visits`; a NaN
threshold compares as false, as in pandas. -/
def qualifies (r : VisitRow) : Bool :=
  match r.min_visits with
  | some m => decide (m ≤ r.visit_count)
  | none => false

/-- The ascending duplicate-free list of user ids of a visit-count
table. -/
def sortedVisitUsers (rows : List VisitRow) : List Nat :=
  rows.foldr (fun r acc => insertSortedDistinct r.user_ID acc) []

/-- The users printed on lines 129-134: users appearing in
`visit_counts` but in no row that passes the threshold filter. -/
def users_without_home (visit_counts : List VisitRow) : List Nat :=
  (sortedVisitUsers visit_counts).filter
    (fun u => (visit_counts.filter (fun r => r.user_ID == u && qualifies r)).isEmpty)

/-- One row of the final output table, line 139: exactly the columns
`user_ID`, `GEOID`, `number_of_days`, `visit_count`. -/
structure HomeRow where
  user_ID : Nat
  geoid : Nat
  number_of_days : Option Nat
  visit_count : Nat
deriving DecidableEq, Repr

/-- The `Series.idxmax` of one group: the first row attaining the
maximal `visit_count`, scanning in row order. -/
def firstMaxRow (r : VisitRow) (rs : List VisitRow) : VisitRow :=
  rs.foldl (fun best x => if best.visit_count < x.visit_count then x else best) r

/-- The row `idxmax` selects for user `u` among the threshold-passing
rows, if `u` has any. -/
def pickHomeRow (qual : List VisitRow) (u : Nat) : Option VisitRow :=
  match qual.filter (fun r => r.user_ID == u) with
  | [] => none
  | r :: rs => some (firstMaxRow r rs)

/-- Model of `filter_home_locations` lines 127-139: filter to
threshold-passing rows, take each user's `idxmax` row (users in
`groupby` key order), and project to the four output columns. -/
def filter_home_locations (visit_counts : List VisitRow) : List HomeRow :=
  let qual := visit_counts.filter qualifies
  (sortedVisitUsers qual).filterMap (fun u =>
    (pickHomeRow qual u).map (fun r =>
      { user_ID := r.user_ID, geoid := r.geoid
        number_of_days := r.number_of_days, visit_count := r.visit_count }))

/-- The visit-count table produced by the pipeline up to `count_visits`. -/
def visitCountsOf (start_hour end_hour : Nat) (df : List Ping) (tracts : List Zone) :
    List VisitRow :=
  let night := filter_night_time_data start_hour end_hour df
  count_visits (calculate_days_available night) (spatial_join night tracts)

/-- The whole `run` pipeline from the in-memory DataFrame to the output
table (`load_data` and `save_results` are I/O plumbing). -/
def runPipeline (start_hour end_hour : Nat) (df : List Ping) (tracts : List Zone) :
    List HomeRow :=
  filter_home_locations (visitCountsOf start_hour end_hour df tracts)

/-! ### Basic lemmas about the sorted-distinct key lists -/

theorem mem_insertSortedDistinct {x y : Nat} {l : List Nat} :
    y ∈ insertSortedDistinct x l ↔ y = x ∨ y ∈ l := by
  induction l with
  | nil => simp [insertSortedDistinct]
  | cons z zs ih =>
    unfold insertSortedDistinct
    by_cases h1 : x < z
    · simp [h1]
    · by_cases h2 : x = z
      · subst h2
        simp [h1]
      · simp [h1, h2, ih]
        tauto

theorem mem_sortedUsers {u : Nat} {pings : List Ping} :
    u ∈ sortedUsers pings ↔ ∃ p ∈ pings, p.user_ID = u := by
  induction pings with
  | nil => simp [sortedUsers]
  | cons p ps ih =>
    show u ∈ insertSortedDistinct p.user_ID (sortedUsers ps) ↔ _
    rw [mem_insertSortedDistinct, ih]
    constructor
    · rintro (rfl | ⟨q, hq, rfl⟩)
      · exact ⟨p, List.mem_cons_self _ _, rfl⟩
      · exact ⟨q, List.mem_cons_of_mem _ hq, rfl⟩
    · rintro ⟨q, hq, rfl⟩
      rcases List.mem_cons.1 hq with rfl | hq
      · exact Or.inl rfl
      · exact Or.inr ⟨q, hq, rfl⟩

theorem mem_sortedVisitUsers {u : Nat} {rows : List VisitRow} :
    u ∈ sortedVisitUsers rows ↔ ∃ r ∈ rows, r.user_ID = u := by
  induction rows with
  | nil => simp [sortedVisitUsers]
  | cons p ps ih =>
    show u ∈ insertSortedDistinct p.user_ID (sortedVisitUsers ps) ↔ _
    rw [mem_insertSortedDistinct, ih]
    constructor
    · rintro (rfl | ⟨q, hq, rfl⟩)
      · exact ⟨p, List.mem_cons_self _ _, rfl⟩
      · exact ⟨q, List.mem_cons_of_mem _ hq, rfl⟩
    · rintro ⟨q, hq, rfl⟩
      rcases List.mem_cons.1 hq with rfl | hq
      · exact Or.inl rfl
      · exact Or.inr ⟨q, hq, rfl⟩

/-- Claim C2: the computed `min_visits` is the piecewise function of the
observation-day count `d`: 0 below 5 days, 2 for 5-9, 3 for 10-14, 4 for
15-21, and the ceiling of `d / 7` above 21 days (the second conjunct pins
`minVisitsOf d` as the exact ceiling of `d / 7` there); in particular
days 21 and 22 both give 4 and day 30 gives 5, and the value is a total
integer-valued function, never missing. -/
theorem minVisits_piecewise :
    (∀ d : Nat, minVisitsOf d =
      if 21 < d then (d + 6) / 7
      else if 15 ≤ d then 4
      else if 10 ≤ d then 3
      else if 5 ≤ d then 2
      else 0) ∧
    (∀ d : Nat, 21 < d → d ≤ minVisitsOf d * 7 ∧ minVisitsOf d * 7 < d + 7) ∧
    minVisitsOf 21 = 4 ∧ minVisitsOf 22 = 4 ∧ minVisitsOf 30 = 5 := by
  refine ⟨?_, ?_, by decide, by decide, by decide⟩
  · intro d
    by_cases h : 21 < d
    · simp [minVisitsOf, ceilDiv7, h]
    · push_neg at h
      interval_cases d <;> decide
  · intro d hd
    have : minVisitsOf d = (d + 6) / 7 := by simp [minVisitsOf, ceilDiv7, hd]
    rw [this]
    omega

theorem minVisits_piecewise_witness :
    30 ≤ minVisitsOf 30 * 7 ∧ minVisitsOf 30 * 7 < 30 + 7 :=
  minVisits_piecewise.2.1 30 (by decide)

/-- Claim C3: a ping is kept as nighttime exactly when its hour `h`
satisfies `start ≤ h < end` for a non-wrapping window and
`h ≥ start ∨ h < end` for a wrapping one; under the default window
(22, 6), hours 23 and 5 are night while 6 and 21 are day. -/
theorem isNight_spec :
    (∀ s e h : Nat, isNight s e h = true ↔
      (if s < e then s ≤ h ∧ h < e else s ≤ h ∨ h < e)) ∧
    (∀ (s e : Nat) (df : List Ping) (p : Ping),
      p ∈ filter_night_time_data s e df ↔
        p ∈ df ∧ isNight s e (hourOf p.unix_start_t) = true) ∧
    isNight 22 6 23 = true ∧ isNight 22 6 5 = true ∧
    isNight 22 6 6 = false ∧ isNight 22 6 21 = false := by
  refine ⟨?_, ?_, by decide, by decide, by decide, by decide⟩
  · intro s e h
    unfold isNight
    split <;> simp
  · intro s e df p
    simp [filter_night_time_data]

/-- Claim C4: a user has a coverage record exactly when they have a
nighttime ping; the recorded `number_of_days` is the number of distinct
calendar dates of that user's nighttime pings (a `Finset` cardinality,
so duplicate dates cannot inflate it); and adding a duplicate ping on an
already-observed date leaves the distinct-date count unchanged. -/
theorem coverage_distinct_days (night : List Ping) (u : Nat) :
    ((∃ c ∈ calculate_days_available night, c.user_ID = u) ↔ ∃ p ∈ night, p.user_ID = u) ∧
    (∀ c ∈ calculate_days_available night,
      c.number_of_days =
        ((night.filter (fun p => p.user_ID == c.user_ID)).map
          (fun p => dateOf p.unix_start_t)).toFinset.card) ∧
    (∀ q : Ping, q.user_ID = u →
      (∃ p ∈ night, p.user_ID = u ∧ dateOf p.unix_start_t = dateOf q.unix_start_t) →
      nuniqueDates (q :: night) u = nuniqueDates night u) := by
  refine ⟨?_, ?_, ?_⟩
  · constructor
    · rintro ⟨c, hc, rfl⟩
      rcases List.mem_map.1 hc with ⟨v, hv, rfl⟩
      exact mem_sortedUsers.1 hv
    · intro hp
      exact ⟨_, List.mem_map.2 ⟨u, mem_sortedUsers.2 hp, rfl⟩, rfl⟩
  · intro c hc
    rcases List.mem_map.1 hc with ⟨v, hv, rfl⟩
    simp only [List.card_toFinset]
    rfl
  · rintro q hq ⟨p, hp, hpu, hpd⟩
    unfold nuniqueDates
    rw [List.filter_cons]
    have hqu : (q.user_ID == u) = true := by simp [hq]
    rw [if_pos hqu, List.map_cons, List.dedup_cons_of_mem]
    rw [← hpd]
    exact List.mem_map.2 ⟨p, List.mem_filter.2 ⟨hp, by simp [hpu]⟩, rfl⟩

theorem coverage_distinct_days_witness :
    nuniqueDates [⟨1, 7200, 0, 0⟩, ⟨1, 0, 0, 0⟩, ⟨1, 3600, 0, 0⟩] 1 =
      nuniqueDates [⟨1, 0, 0, 0⟩, ⟨1, 3600, 0, 0⟩] 1 :=
  (coverage_distinct_days [⟨1, 0, 0, 0⟩, ⟨1, 3600, 0, 0⟩] 1).2.2 ⟨1, 7200, 0, 0⟩ rfl
    ⟨⟨1, 0, 0, 0⟩, by decide, rfl, by decide⟩

/-- Claim C9: with zero nighttime pings every downstream stage (all of
them total functions in this embedding, so none can fail) produces an
empty table, and the pipeline output is empty. -/
theorem empty_night_empty_output (sh eh : Nat) (df : List Ping) (tracts : List Zone)
    (h : filter_night_time_data sh eh df = []) :
    calculate_days_available (filter_night_time_data sh eh df) = [] ∧
    spatial_join (filter_night_time_data sh eh df) tracts = [] ∧
    visitCountsOf sh eh df tracts = [] ∧
    users_without_home (visitCountsOf sh eh df tracts) = [] ∧
    runPipeline sh eh df tracts = [] := by
  refine ⟨?_, ?_, ?_, ?_, ?_⟩ <;> simp only [visitCountsOf, runPipeline, h] <;> rfl

theorem empty_night_empty_output_witness :
    calculate_days_available (filter_night_time_data 22 6 []) = [] ∧
    spatial_join (filter_night_time_data 22 6 []) [] = [] ∧
    visitCountsOf 22 6 [] [] = [] ∧
    users_without_home (visitCountsOf 22 6 [] []) = [] ∧
    runPipeline 22 6 [] [] = [] :=
  empty_night_empty_output 22 6 [] [] rfl

/-! ### Lemmas about the spatial join -/

theorem sjoinRows_fst {tracts : List Zone} {p : Ping} {r : Ping × Option Nat}
    (h : r ∈ sjoinRows tracts p) : r.1 = p := by
  unfold sjoinRows at h
  rcases hm : sjoinMatches tracts p with _ | ⟨z, zs⟩ <;> rw [hm] at h
  · simp at h
    simp [h]
  · rcases List.mem_map.1 h with ⟨z', _, rfl⟩
    rfl

theorem sjoinRows_snd_some {tracts : List Zone} {p : Ping} {r : Ping × Option Nat} {g : Nat}
    (h : r ∈ sjoinRows tracts p) (hg : r.2 = some g) :
    ∃ z ∈ sjoinMatches tracts p, z.geoid = g := by
  unfold sjoinRows at h
  rcases hm : sjoinMatches tracts p with _ | ⟨z, zs⟩ <;> rw [hm] at h
  · simp at h
    rw [h] at hg
    simp at hg
  · rcases List.mem_map.1 h with ⟨z', hz', rfl⟩
    simp at hg
    exact ⟨z', hz', hg⟩

theorem sjoinRows_of_match {tracts : List Zone} {p : Ping} {z : Zone}
    (hz : z ∈ sjoinMatches tracts p) :
    (p, some z.geoid) ∈ sjoinRows tracts p := by
  unfold sjoinRows
  rcases hm : sjoinMatches tracts p with _ | ⟨w, ws⟩
  · rw [hm] at hz
    cases hz
  · rw [hm] at hz
    exact List.mem_map.2 ⟨z, hz, rfl⟩

theorem sjoinRows_unmatched {tracts : List Zone} {p : Ping}
    (h : sjoinMatches tracts p = []) :
    sjoinRows tracts p = [(p, none)] := by
  unfold sjoinRows
  rw [h]

theorem mem_spatial_join {night : List Ping} {tracts : List Zone} {r : Ping × Option Nat} :
    r ∈ spatial_join night tracts ↔ ∃ p ∈ night, r ∈ sjoinRows tracts p :=
  List.mem_flatMap

/-! ### Lemmas about the grouped `(user_ID, GEOID)` keys -/

theorem keyLt_trans {a b c : Nat × Nat} (h1 : keyLt a b) (h2 : keyLt b c) : keyLt a c := by
  unfold keyLt at *
  omega

theorem keyLt_total {a b : Nat × Nat} (h1 : ¬ keyLt a b) (h2 : a ≠ b) : keyLt b a := by
  unfold keyLt at *
  rcases a with ⟨a1, a2⟩
  rcases b with ⟨b1, b2⟩
  have h2' : ¬ (a1 = b1 ∧ a2 = b2) := by
    intro hc
    exact h2 (by rw [hc.1, hc.2])
  simp only [not_or, not_and, not_lt] at h1
  by_cases hab : a1 = b1
  · subst hab
    right
    refine ⟨rfl, ?_⟩
    have hle : b2 ≤ a2 := h1.2 rfl
    have hne : a2 ≠ b2 := fun hc => h2' ⟨rfl, hc⟩
    omega
  · left
    rcases h1 with ⟨hle, _⟩
    omega

theorem mem_insertKeySorted {x y : Nat × Nat} {l : List (Nat × Nat)} :
    y ∈ insertKeySorted x l ↔ y = x ∨ y ∈ l := by
  induction l with
  | nil => simp [insertKeySorted]
  | cons z zs ih =>
    unfold insertKeySorted
    by_cases h1 : keyLt x z
    · simp [h1]
    · by_cases h2 : x = z
      · subst h2
        simp [h1]
      · simp [h1, h2, ih]
        tauto

theorem pairwise_insertKeySorted {x : Nat × Nat} {l : List (Nat × Nat)}
    (h : l.Pairwise keyLt) : (insertKeySorted x l).Pairwise keyLt := by
  induction l with
  | nil => simp [insertKeySorted]
  | cons y ys ih =>
    rw [List.pairwise_cons] at h
    unfold insertKeySorted
    by_cases h1 : keyLt x y
    · rw [if_pos h1]
      refine List.pairwise_cons.2 ⟨?_, List.pairwise_cons.2 h⟩
      intro z hz
      rcases List.mem_cons.1 hz with rfl | hz
      · exact h1
      · exact keyLt_trans h1 (h.1 z hz)
    · rw [if_neg h1]
      by_cases h2 : x = y
      · rw [if_pos h2]
        exact List.pairwise_cons.2 h
      · rw [if_neg h2]
        refine List.pairwise_cons.2 ⟨?_, ih h.2⟩
        intro z hz
        rcases mem_insertKeySorted.1 hz with rfl | hz
        · exact keyLt_total h1 h2
        · exact h.1 z hz

theorem mem_matchedKeys {joined : List (Ping × Option Nat)} {k : Nat × Nat} :
    k ∈ matchedKeys joined ↔ ∃ r ∈ joined, r.1.user_ID = k.1 ∧ r.2 = some k.2 := by
  induction joined with
  | nil => simp [matchedKeys]
  | cons r rs ih =>
    show k ∈ (match r.2 with
      | some g => insertKeySorted (r.1.user_ID, g) (matchedKeys rs)
      | none => matchedKeys rs) ↔ _
    rcases hr : r.2 with _ | g
    · rw [ih]
      constructor
      · rintro ⟨q, hq, hq1, hq2⟩
        exact ⟨q, List.mem_cons_of_mem _ hq, hq1, hq2⟩
      · rintro ⟨q, hq, hq1, hq2⟩
        rcases List.mem_cons.1 hq with rfl | hq
        · rw [hr] at hq2
          cases hq2
        · exact ⟨q, hq, hq1, hq2⟩
    · rw [mem_insertKeySorted, ih]
      constructor
      · rintro (rfl | ⟨q, hq, hq1, hq2⟩)
        · exact ⟨r, List.mem_cons_self _ _, rfl, hr⟩
        · exact ⟨q, List.mem_cons_of_mem _ hq, hq1, hq2⟩
      · rintro ⟨q, hq, hq1, hq2⟩
        rcases List.mem_cons.1 hq with rfl | hq
        · left
          rw [hr] at hq2
          cases hq2
          exact Prod.ext hq1.symm rfl
        · right
          exact ⟨q, hq, hq1, hq2⟩

theorem pairwise_matchedKeys (joined : List (Ping × Option Nat)) :
    (matchedKeys joined).Pairwise keyLt := by
  induction joined with
  | nil => simp [matchedKeys]
  | cons r rs ih =>
    show (match r.2 with
      | some g => insertKeySorted (r.1.user_ID, g) (matchedKeys rs)
      | none => matchedKeys rs).Pairwise keyLt
    rcases r.2 with _ | g
    · exact ih
    · exact pairwise_insertKeySorted ih

theorem countKey_pos {joined : List (Ping × Option Nat)} {q : Ping} {g : Nat}
    (h : (q, some g) ∈ joined) : 0 < countKey joined (q.user_ID, g) :=
  List.length_pos_of_mem (List.mem_filter.2 ⟨h, by simp⟩)

/-! ### Lemmas about the first-max selection -/

theorem firstMaxRow_cons (r y : VisitRow) (ys : List VisitRow) :
    firstMaxRow r (y :: ys) =
      firstMaxRow (if r.visit_count < y.visit_count then y else r) ys := rfl

theorem firstMaxRow_mem (rs : List VisitRow) : ∀ r : VisitRow, firstMaxRow r rs ∈ r :: rs := by
  induction rs with
  | nil => intro r; exact List.mem_cons_self _ _
  | cons y ys ih =>
    intro r
    rw [firstMaxRow_cons]
    rcases List.mem_cons.1 (ih (if r.visit_count < y.visit_count then y else r)) with he | hm
    · rw [he]
      by_cases h : r.visit_count < y.visit_count <;> simp [h]
    · exact List.mem_cons_of_mem _ (List.mem_cons_of_mem _ hm)

theorem firstMaxRow_ge (rs : List VisitRow) :
    ∀ r x : VisitRow, x ∈ r :: rs → x.visit_count ≤ (firstMaxRow r rs).visit_count := by
  induction rs with
  | nil =>
    intro r x hx
    rcases List.mem_cons.1 hx with rfl | h
    · exact le_refl _
    · cases h
  | cons y ys ih =>
    intro r x hx
    rw [firstMaxRow_cons]
    have hr' : r.visit_count ≤ (if r.visit_count < y.visit_count then y else r).visit_count := by
      by_cases h : r.visit_count < y.visit_count
      · rw [if_pos h]
        omega
      · rw [if_neg h]
    have hy' : y.visit_count ≤ (if r.visit_count < y.visit_count then y else r).visit_count := by
      by_cases h : r.visit_count < y.visit_count
      · rw [if_pos h]
      · rw [if_neg h]
        omega
    have hhead := ih (if r.visit_count < y.visit_count then y else r) _
      (List.mem_cons_self _ _)
    rcases List.mem_cons.1 hx with rfl | hx'
    · exact le_trans hr' hhead
    · rcases List.mem_cons.1 hx' with rfl | hx''
      · exact le_trans hy' hhead
      · exact ih _ x (List.mem_cons_of_mem _ hx'')

theorem firstMaxRow_eq_or_lt (rs : List VisitRow) :
    ∀ r : VisitRow, firstMaxRow r rs = r ∨ r.visit_count < (firstMaxRow r rs).visit_count := by
  induction rs with
  | nil => intro r; exact Or.inl rfl
  | cons y ys ih =>
    intro r
    rw [firstMaxRow_cons]
    by_cases h : r.visit_count < y.visit_count
    · rw [if_pos h]
      right
      rcases ih y with he | hlt
      · rw [he]
        exact h
      · exact lt_trans h hlt
    · rw [if_neg h]
      exact ih r

theorem firstMaxRow_first {P : VisitRow → VisitRow → Prop} (rs : List VisitRow) :
    ∀ r x : VisitRow, (r :: rs).Pairwise P → x ∈ r :: rs →
      x.visit_count = (firstMaxRow r rs).visit_count →
      x = firstMaxRow r rs ∨ P (firstMaxRow r rs) x := by
  induction rs with
  | nil =>
    intro r x _ hx _
    rcases List.mem_cons.1 hx with rfl | h
    · exact Or.inl rfl
    · cases h
  | cons y ys ih =>
    intro r x hp hx hcount
    rw [List.pairwise_cons] at hp
    obtain ⟨hr, hp2⟩ := hp
    rw [firstMaxRow_cons] at hcount ⊢
    by_cases h : r.visit_count < y.visit_count
    · rw [if_pos h] at hcount ⊢
      rcases List.mem_cons.1 hx with rfl | hx'
      · exfalso
        have hge : y.visit_count ≤ (firstMaxRow y ys).visit_count :=
          firstMaxRow_ge ys y y (List.mem_cons_self _ _)
        omega
      · exact ih y x hp2 hx' hcount
    · rw [if_neg h] at hcount ⊢
      have hpr : (r :: ys).Pairwise P :=
        List.pairwise_cons.2 ⟨fun b hb => hr b (List.mem_cons_of_mem _ hb),
          (List.pairwise_cons.1 hp2).2⟩
      rcases List.mem_cons.1 hx with rfl | hx'
      · exact ih x x hpr (List.mem_cons_self _ _) hcount
      · rcases List.mem_cons.1 hx' with rfl | hx''
        · rcases firstMaxRow_eq_or_lt ys r with he | hlt
          · rw [he] at hcount ⊢
            right
            exact hr x (List.mem_cons_self _ _)
          · exfalso
            omega
        · exact ih r x hpr (List.mem_cons_of_mem _ hx'') hcount

/-! ### Lemmas about `count_visits` and `filter_home_locations` -/

theorem count_visits_fields {days : List CoverageRow} {joined : List (Ping × Option Nat)}
    {r : VisitRow} (h : r ∈ count_visits days joined) :
    (r.user_ID, r.geoid) ∈ matchedKeys joined ∧
    r.visit_count = countKey joined (r.user_ID, r.geoid) ∧
    r.min_visits =
      (days.find? (fun c => c.user_ID == r.user_ID)).map (fun c => c.min_visits) ∧
    r.number_of_days =
      (days.find? (fun c => c.user_ID == r.user_ID)).map (fun c => c.number_of_days) := by
  unfold count_visits at h
  rcases List.mem_map.1 h with ⟨k, hk, rfl⟩
  rcases hf : days.find? (fun c => c.user_ID == k.1) with _ | c <;>
    simp only [hf] <;> simp [hf, hk]

theorem count_visits_of_key {days : List CoverageRow} {joined : List (Ping × Option Nat)}
    {k : Nat × Nat} (hk : k ∈ matchedKeys joined) :
    ∃ r ∈ count_visits days joined, r.user_ID = k.1 ∧ r.geoid = k.2 ∧
      r.visit_count = countKey joined k := by
  unfold count_visits
  refine ⟨_, List.mem_map.2 ⟨k, hk, rfl⟩, ?_⟩
  rcases hf : days.find? (fun c => c.user_ID == k.1) with _ | c <;> simp [hf]

theorem find_in_coverage_map (l : List Nat) (night : List Ping) {u : Nat} (hu : u ∈ l) :
    (l.map (fun v =>
        ({ user_ID := v, number_of_days := nuniqueDates night v,
           min_visits := minVisitsOf (nuniqueDates night v) } : CoverageRow))).find?
      (fun c => c.user_ID == u) =
      some { user_ID := u, number_of_days := nuniqueDates night u,
             min_visits := minVisitsOf (nuniqueDates night u) } := by
  induction l with
  | nil => cases hu
  | cons v vs ih =>
    rw [List.map_cons]
    by_cases hv : v = u
    · subst hv
      exact List.find?_cons_of_pos _ (by simp)
    · rw [List.find?_cons_of_neg _ (by simp [hv])]
      refine ih ?_
      rcases List.mem_cons.1 hu with rfl | hvs
      · exact absurd rfl hv
      · exact hvs

theorem mem_filter_home {vcs : List VisitRow} {h : HomeRow} :
    h ∈ filter_home_locations vcs ↔
      ∃ u ∈ sortedVisitUsers (vcs.filter qualifies), ∃ r : VisitRow,
        pickHomeRow (vcs.filter qualifies) u = some r ∧
        h = { user_ID := r.user_ID, geoid := r.geoid,
              number_of_days := r.number_of_days, visit_count := r.visit_count } := by
  unfold filter_home_locations
  rw [List.mem_filterMap]
  constructor
  · rintro ⟨u, hu, hmap⟩
    rcases Option.map_eq_some'.1 hmap with ⟨r, hr, rfl⟩
    exact ⟨u, hu, r, hr, rfl⟩
  · rintro ⟨u, hu, r, hr, rfl⟩
    refine ⟨u, hu, ?_⟩
    rw [hr]
    rfl

theorem pickHomeRow_props {qual : List VisitRow} {u : Nat} {r : VisitRow}
    (h : pickHomeRow qual u = some r) :
    r ∈ qual.filter (fun x => x.user_ID == u) ∧
    (∀ x ∈ qual.filter (fun x => x.user_ID == u), x.visit_count ≤ r.visit_count) := by
  unfold pickHomeRow at h
  rcases hf : qual.filter (fun x => x.user_ID == u) with _ | ⟨a, as⟩ <;> rw [hf] at h
  · cases h
  · cases h
    rw [hf]
    exact ⟨firstMaxRow_mem as a, fun x hx => firstMaxRow_ge as a x hx⟩

theorem pickHomeRow_user {qual : List VisitRow} {u : Nat} {r : VisitRow}
    (h : pickHomeRow qual u = some r) : r.user_ID = u ∧ r ∈ qual := by
  have hmem := (pickHomeRow_props h).1
  have := List.mem_filter.1 hmem
  exact ⟨by simpa using this.2, this.1⟩

theorem pickHomeRow_of_mem {qual : List VisitRow} {u : Nat} {x : VisitRow}
    (hx : x ∈ qual) (hxu : x.user_ID = u) :
    ∃ r : VisitRow, pickHomeRow qual u = some r := by
  unfold pickHomeRow
  rcases hf : qual.filter (fun y => y.user_ID == u) with _ | ⟨a, as⟩
  · exfalso
    have : x ∈ qual.filter (fun y => y.user_ID == u) :=
      List.mem_filter.2 ⟨hx, by simp [hxu]⟩
    rw [hf] at this
    cases this
  · rw [hf]
    exact ⟨firstMaxRow a as, rfl⟩

theorem spatial_join_fst_mem {night : List Ping} {tracts : List Zone}
    {row : Ping × Option Nat} (h : row ∈ spatial_join night tracts) :
    row.1 ∈ night := by
  rcases mem_spatial_join.1 h with ⟨p, hp, hrow⟩
  rw [sjoinRows_fst hrow]
  exact hp

theorem coverage_find {night : List Ping} {u : Nat} (hu : u ∈ sortedUsers night) :
    (calculate_days_available night).find? (fun c => c.user_ID == u) =
      some { user_ID := u, number_of_days := nuniqueDates night u,
             min_visits := minVisitsOf (nuniqueDates night u) } :=
  find_in_coverage_map (sortedUsers night) night hu

/-- Claim C7: every row of the visit-count table carries exactly the
`min_visits` (and `number_of_days`) of that user's coverage record, so
the threshold is a function of the user alone, identical across all of
that user's zones. -/
theorem visit_threshold_from_coverage (sh eh : Nat) (df : List Ping) (tracts : List Zone) :
    (∀ r ∈ visitCountsOf sh eh df tracts,
      ∃ c ∈ calculate_days_available (filter_night_time_data sh eh df),
        c.user_ID = r.user_ID ∧ r.min_visits = some c.min_visits ∧
        r.number_of_days = some c.number_of_days) ∧
    (∀ r ∈ visitCountsOf sh eh df tracts, ∀ x ∈ visitCountsOf sh eh df tracts,
      r.user_ID = x.user_ID →
      r.min_visits = x.min_visits ∧ r.number_of_days = x.number_of_days) := by
  constructor
  · intro r hr
    obtain ⟨hkey, _, hmv, hnd⟩ := count_visits_fields hr
    obtain ⟨row, hrow, hru, _⟩ := mem_matchedKeys.1 hkey
    have hmem : row.1 ∈ filter_night_time_data sh eh df := spatial_join_fst_mem hrow
    have huser : r.user_ID ∈ sortedUsers (filter_night_time_data sh eh df) :=
      mem_sortedUsers.2 ⟨row.1, hmem, hru⟩
    refine ⟨_, List.mem_map.2 ⟨r.user_ID, huser, rfl⟩, rfl, ?_, ?_⟩
    · rw [hmv, coverage_find huser]
      rfl
    · rw [hnd, coverage_find huser]
      rfl
  · intro r hr x hx hux
    obtain ⟨_, _, hmv, hnd⟩ := count_visits_fields hr
    obtain ⟨_, _, hmv', hnd'⟩ := count_visits_fields hx
    rw [hmv, hnd, hmv', hnd', hux]
    exact ⟨rfl, rfl⟩

theorem visit_threshold_from_coverage_witness :
    ∃ c ∈ calculate_days_available (filter_night_time_data 22 6 [⟨1, 0, 5, 5⟩]),
      c.user_ID = (⟨1, 100, 1, some 1, some 0⟩ : VisitRow).user_ID ∧
      (⟨1, 100, 1, some 1, some 0⟩ : VisitRow).min_visits = some c.min_visits ∧
      (⟨1, 100, 1, some 1, some 0⟩ : VisitRow).number_of_days = some c.number_of_days :=
  (visit_threshold_from_coverage 22 6 [⟨1, 0, 5, 5⟩] [⟨100, 0, 10, 0, 10⟩]).1
    ⟨1, 100, 1, some 1, some 0⟩ (by decide)

/-- Claim C5: a user all of whose nighttime pings are contained in no
tract still gets a coverage record (each such ping joins with a missing
tract id, so it counts toward coverage), but the user has no row in the
visit-count table and never appears in the output. -/
theorem unmatched_pings_coverage_only (sh eh : Nat) (df : List Ping) (tracts : List Zone)
    (u : Nat)
    (hnight : ∃ p ∈ filter_night_time_data sh eh df, p.user_ID = u)
    (hnomatch : ∀ p ∈ filter_night_time_data sh eh df, p.user_ID = u →
      sjoinMatches tracts p = []) :
    (∃ c ∈ calculate_days_available (filter_night_time_data sh eh df), c.user_ID = u) ∧
    (∀ p ∈ filter_night_time_data sh eh df, p.user_ID = u →
      (p, (none : Option Nat)) ∈ spatial_join (filter_night_time_data sh eh df) tracts) ∧
    (∀ r ∈ visitCountsOf sh eh df tracts, r.user_ID ≠ u) ∧
    (∀ h ∈ runPipeline sh eh df tracts, h.user_ID ≠ u) := by
  have hvc : ∀ r ∈ visitCountsOf sh eh df tracts, r.user_ID ≠ u := by
    intro r hr hru
    obtain ⟨hkey, _, _, _⟩ := count_visits_fields hr
    obtain ⟨row, hrow, hru2, hrg⟩ := mem_matchedKeys.1 hkey
    rcases mem_spatial_join.1 hrow with ⟨p, hp, hrows⟩
    have hfst := sjoinRows_fst hrows
    obtain ⟨z, hz, _⟩ := sjoinRows_snd_some hrows hrg
    have hempty : sjoinMatches tracts p = [] := by
      refine hnomatch p hp ?_
      have hpu : p.user_ID = r.user_ID := by
        rw [← hfst]
        exact hru2
      rw [hpu, hru]
    rw [hempty] at hz
    cases hz
  refine ⟨?_, ?_, hvc, ?_⟩
  · obtain ⟨p, hp, hpu⟩ := hnight
    exact ⟨_, List.mem_map.2 ⟨u, mem_sortedUsers.2 ⟨p, hp, hpu⟩, rfl⟩, rfl⟩
  · intro p hp hpu
    refine mem_spatial_join.2 ⟨p, hp, ?_⟩
    rw [sjoinRows_unmatched (hnomatch p hp hpu)]
    exact List.mem_cons_self _ _
  · intro h hmem hu2
    rcases mem_filter_home.1 hmem with ⟨u', hu', rstar, hpick, rfl⟩
    obtain ⟨hru', hrq⟩ := pickHomeRow_user hpick
    have hrv : rstar ∈ visitCountsOf sh eh df tracts := (List.mem_filter.1 hrq).1
    exact hvc rstar hrv hu2

theorem unmatched_pings_coverage_only_witness :
    (∃ c ∈ calculate_days_available (filter_night_time_data 22 6 [⟨1, 0, 50, 50⟩]),
      c.user_ID = 1) ∧
    (∀ p ∈ filter_night_time_data 22 6 [⟨1, 0, 50, 50⟩], p.user_ID = 1 →
      (p, (none : Option Nat)) ∈
        spatial_join (filter_night_time_data 22 6 [⟨1, 0, 50, 50⟩]) [⟨7, 0, 10, 0, 10⟩]) ∧
    (∀ r ∈ visitCountsOf 22 6 [⟨1, 0, 50, 50⟩] [⟨7, 0, 10, 0, 10⟩], r.user_ID ≠ 1) ∧
    (∀ h ∈ runPipeline 22 6 [⟨1, 0, 50, 50⟩] [⟨7, 0, 10, 0, 10⟩], h.user_ID ≠ 1) :=
  unmatched_pings_coverage_only 22 6 [⟨1, 0, 50, 50⟩] [⟨7, 0, 10, 0, 10⟩] 1
    ⟨⟨1, 0, 50, 50⟩, by decide, rfl⟩ (by decide)

/-- Claim C1: for a user with at least one visit-count row, all of whose
rows carry the user threshold `some m`, a home row exists iff some row
reaches the threshold; the home row is unique for the user; and it is
exactly the projection to the four output columns (user id, zone id,
number_of_days, visit count) of a qualifying row whose visit count is
maximal among the user's qualifying rows. -/
theorem home_selection (vcs : List VisitRow) (u m : Nat)
    (hrow : ∃ r ∈ vcs, r.user_ID = u)
    (hm : ∀ r ∈ vcs, r.user_ID = u → r.min_visits = some m) :
    ((∃ h ∈ filter_home_locations vcs, h.user_ID = u) ↔
      ∃ r ∈ vcs, r.user_ID = u ∧ m ≤ r.visit_count) ∧
    (∀ h1 ∈ filter_home_locations vcs, ∀ h2 ∈ filter_home_locations vcs,
      h1.user_ID = u → h2.user_ID = u → h1 = h2) ∧
    (∀ h ∈ filter_home_locations vcs, h.user_ID = u →
      ∃ r ∈ vcs, r.user_ID = u ∧ m ≤ r.visit_count ∧
        h = { user_ID := r.user_ID, geoid := r.geoid,
              number_of_days := r.number_of_days, visit_count := r.visit_count } ∧
        ∀ x ∈ vcs, x.user_ID = u → m ≤ x.visit_count → x.visit_count ≤ r.visit_count) := by
  have hqual : ∀ x : VisitRow, x ∈ vcs → x.user_ID = u →
      (qualifies x = true ↔ m ≤ x.visit_count) := by
    intro x hx hxu
    unfold qualifies
    rw [hm x hx hxu]
    simp
  refine ⟨⟨?_, ?_⟩, ?_, ?_⟩
  · rintro ⟨h, hmem, hu⟩
    rcases mem_filter_home.1 hmem with ⟨u', hu', r, hpick, rfl⟩
    obtain ⟨hru', hrq⟩ := pickHomeRow_user hpick
    have hrvcs : r ∈ vcs := (List.mem_filter.1 hrq).1
    have hq : qualifies r = true := (List.mem_filter.1 hrq).2
    have hru : r.user_ID = u := hu
    exact ⟨r, hrvcs, hru, (hqual r hrvcs hru).1 hq⟩
  · rintro ⟨r, hr, hru, hmv⟩
    have hq : qualifies r = true := (hqual r hr hru).2 hmv
    have hrqual : r ∈ vcs.filter qualifies := List.mem_filter.2 ⟨hr, hq⟩
    obtain ⟨rstar, hpick⟩ := pickHomeRow_of_mem hrqual hru
    refine ⟨_, mem_filter_home.2
      ⟨u, mem_sortedVisitUsers.2 ⟨r, hrqual, hru⟩, rstar, hpick, rfl⟩, ?_⟩
    exact (pickHomeRow_user hpick).1
  · intro h1 hm1 h2 hm2 hu1 hu2
    rcases mem_filter_home.1 hm1 with ⟨u1, _, r1, hp1, rfl⟩
    rcases mem_filter_home.1 hm2 with ⟨u2, _, r2, hp2, rfl⟩
    have hr1u : r1.user_ID = u1 := (pickHomeRow_user hp1).1
    have hr2u : r2.user_ID = u2 := (pickHomeRow_user hp2).1
    have hu1e : u1 = u := by
      rw [← hr1u]
      exact hu1
    have hu2e : u2 = u := by
      rw [← hr2u]
      exact hu2
    subst hu1e
    subst hu2e
    rw [hp1] at hp2
    cases hp2
    rfl
  · intro h hmem hu
    rcases mem_filter_home.1 hmem with ⟨u', hu', r, hpick, rfl⟩
    obtain ⟨hru', hrq⟩ := pickHomeRow_user hpick
    have hrvcs : r ∈ vcs := (List.mem_filter.1 hrq).1
    have hq : qualifies r = true := (List.mem_filter.1 hrq).2
    have hru : r.user_ID = u := hu
    obtain ⟨_, hmax⟩ := pickHomeRow_props hpick
    refine ⟨r, hrvcs, hru, (hqual r hrvcs hru).1 hq, rfl, ?_⟩
    intro x hx hxu hxm
    have hxq : qualifies x = true := (hqual x hx hxu).2 hxm
    refine hmax x (List.mem_filter.2 ⟨List.mem_filter.2 ⟨hx, hxq⟩, ?_⟩)
    have huu : u' = u := by
      rw [← hru']
      exact hru
    simp [hxu, huu]

theorem home_selection_witness :
    ∃ h ∈ filter_home_locations [⟨1, 100, 3, some 5, some 2⟩], h.user_ID = 1 :=
  (home_selection [⟨1, 100, 3, some 5, some 2⟩] 1 2
    ⟨⟨1, 100, 3, some 5, some 2⟩, by decide, rfl⟩ (by decide)).1.mpr
    ⟨⟨1, 100, 3, some 5, some 2⟩, by decide, rfl, by decide⟩

/-- Claim C6 (amended): a nighttime ping contained in several tract
polygons yields one joined row per containing tract (the join does not
pick a single match), and the ping therefore contributes at least one
visit to EVERY containing tract's (user, zone) count. -/
theorem overlapping_zones_all_counted (sh eh : Nat) (df : List Ping) (tracts : List Zone)
    (p : Ping) (z : Zone)
    (hp : p ∈ filter_night_time_data sh eh df) (hz : z ∈ tracts)
    (hc : z.containsPoint p.orig_long p.orig_lat = true) :
    (sjoinRows tracts p).length = (sjoinMatches tracts p).length ∧
    ∃ r ∈ visitCountsOf sh eh df tracts,
      r.user_ID = p.user_ID ∧ r.geoid = z.geoid ∧ 1 ≤ r.visit_count := by
  have hzm : z ∈ sjoinMatches tracts p := List.mem_filter.2 ⟨hz, hc⟩
  constructor
  · unfold sjoinRows
    rcases hm : sjoinMatches tracts p with _ | ⟨w, ws⟩
    · rw [hm] at hzm
      cases hzm
    · simp
  · have hjoin : (p, some z.geoid) ∈
        spatial_join (filter_night_time_data sh eh df) tracts :=
      mem_spatial_join.2 ⟨p, hp, sjoinRows_of_match hzm⟩
    have hkey : (p.user_ID, z.geoid) ∈
        matchedKeys (spatial_join (filter_night_time_data sh eh df) tracts) :=
      mem_matchedKeys.2 ⟨(p, some z.geoid), hjoin, rfl, rfl⟩
    obtain ⟨r, hr, hru, hrg, hrc⟩ := count_visits_of_key hkey
    refine ⟨r, hr, hru, hrg, ?_⟩
    rw [hrc]
    exact countKey_pos hjoin

theorem overlapping_zones_all_counted_witness :
    ∃ r ∈ visitCountsOf 22 6 [⟨1, 0, 5, 5⟩] [⟨100, 0, 10, 0, 10⟩, ⟨200, 0, 10, 0, 10⟩],
      r.user_ID = (⟨1, 0, 5, 5⟩ : Ping).user_ID ∧
      r.geoid = (⟨200, 0, 10, 0, 10⟩ : Zone).geoid ∧ 1 ≤ r.visit_count :=
  (overlapping_zones_all_counted 22 6 [⟨1, 0, 5, 5⟩]
    [⟨100, 0, 10, 0, 10⟩, ⟨200, 0, 10, 0, 10⟩] ⟨1, 0, 5, 5⟩ ⟨200, 0, 10, 0, 10⟩
    (by decide) (by decide) (by decide)).2

/-- Claim C6 counterexample: one nighttime ping of user 1 strictly
inside two overlapping tracts (GEOIDs 100 and 200) produces two joined
rows and two visit-count rows, one per tract, each counting the single
ping; the ping is not assigned to exactly one zone. -/
theorem overlap_ping_double_counted :
    (sjoinRows [⟨100, 0, 10, 0, 10⟩, ⟨200, 0, 10, 0, 10⟩] ⟨1, 0, 5, 5⟩).length = 2 ∧
    (visitCountsOf 22 6 [⟨1, 0, 5, 5⟩] [⟨100, 0, 10, 0, 10⟩, ⟨200, 0, 10, 0, 10⟩]).map
      (fun r => (r.user_ID, r.geoid, r.visit_count)) = [(1, 100, 1), (1, 200, 1)] := by
  decide

/-- Claim C8 at its failing input: user 1's only nighttime ping falls
outside the only tract, so no zone can reach the threshold; the notice
set of `filter_home_locations` (lines 129-134) is computed from the
visit-count table, which has no row for user 1, so no notice is emitted
for the user even though they have nighttime data. -/
theorem unmatched_user_no_notice :
    filter_night_time_data 22 6 [⟨1, 0, 50, 50⟩] = [⟨1, 0, 50, 50⟩] ∧
    visitCountsOf 22 6 [⟨1, 0, 50, 50⟩] [⟨7, 0, 10, 0, 10⟩] = [] ∧
    users_without_home (visitCountsOf 22 6 [⟨1, 0, 50, 50⟩] [⟨7, 0, 10, 0, 10⟩]) = [] := by
  decide

/-- Claim C10: the visit-count table is sorted strictly ascending by
(user_ID, GEOID) — `groupby` sorts its keys — and the selected home row,
being the first row attaining the user's maximal qualifying visit count,
has the smallest GEOID among that user's qualifying rows tying for the
winning visit count. -/
theorem tie_break_smallest_geoid (sh eh : Nat) (df : List Ping) (tracts : List Zone) :
    (visitCountsOf sh eh df tracts).Pairwise
      (fun a b => a.user_ID < b.user_ID ∨ (a.user_ID = b.user_ID ∧ a.geoid < b.geoid)) ∧
    (∀ h ∈ runPipeline sh eh df tracts, ∀ r ∈ visitCountsOf sh eh df tracts,
      r.user_ID = h.user_ID → qualifies r = true → r.visit_count = h.visit_count →
      h.geoid ≤ r.geoid) := by
  have hpw : (visitCountsOf sh eh df tracts).Pairwise
      (fun a b => a.user_ID < b.user_ID ∨ (a.user_ID = b.user_ID ∧ a.geoid < b.geoid)) := by
    show (count_visits (calculate_days_available (filter_night_time_data sh eh df))
      (spatial_join (filter_night_time_data sh eh df) tracts)).Pairwise _
    unfold count_visits
    refine List.Pairwise.map _ ?_ (pairwise_matchedKeys _)
    intro a b hab
    rcases hf : (calculate_days_available (filter_night_time_data sh eh df)).find?
        (fun c => c.user_ID == a.1) with _ | c <;>
      rcases hf' : (calculate_days_available (filter_night_time_data sh eh df)).find?
          (fun c => c.user_ID == b.1) with _ | c' <;>
      simp only [hf, hf'] <;> exact hab
  refine ⟨hpw, ?_⟩
  intro h hmem r hr hru hq hcount
  rcases mem_filter_home.1 hmem with ⟨u', hu', rstar, hpick, rfl⟩
  unfold pickHomeRow at hpick
  rcases hf : ((visitCountsOf sh eh df tracts).filter qualifies).filter
      (fun x => x.user_ID == u') with _ | ⟨a, as⟩ <;> rw [hf] at hpick
  · cases hpick
  · cases hpick
    show (firstMaxRow a as).geoid ≤ r.geoid
    have hpw2 : (a :: as).Pairwise
        (fun a b : VisitRow =>
          a.user_ID < b.user_ID ∨ (a.user_ID = b.user_ID ∧ a.geoid < b.geoid)) := by
      rw [← hf]
      exact (hpw.sublist (List.filter_sublist _)).sublist (List.filter_sublist _)
    have hfm : firstMaxRow a as ∈ ((visitCountsOf sh eh df tracts).filter qualifies).filter
        (fun x => x.user_ID == u') := by
      rw [hf]
      exact firstMaxRow_mem as a
    have hfmu : (firstMaxRow a as).user_ID = u' := by
      simpa using (List.mem_filter.1 hfm).2
    have hrufm : r.user_ID = (firstMaxRow a as).user_ID := hru
    have hrlst : r ∈ ((visitCountsOf sh eh df tracts).filter qualifies).filter
        (fun x => x.user_ID == u') := by
      refine List.mem_filter.2 ⟨List.mem_filter.2 ⟨hr, hq⟩, ?_⟩
      simp [hrufm, hfmu]
    rw [hf] at hrlst
    have hc2 : r.visit_count = (firstMaxRow a as).visit_count := hcount
    rcases firstMaxRow_first as a r hpw2 hrlst hc2 with he | hrel
    · rw [he]
    · rcases hrel with hlt | ⟨_, hgeo⟩
      · exfalso
        omega
      · exact le_of_lt hgeo

theorem tie_break_smallest_geoid_witness :
    (⟨1, 150, some 1, 1⟩ : HomeRow).geoid ≤ (⟨1, 300, 1, some 1, some 0⟩ : VisitRow).geoid :=
  (tie_break_smallest_geoid 22 6 [⟨1, 0, 5, 5⟩, ⟨1, 3600, 25, 5⟩]
      [⟨300, 0, 10, 0, 10⟩, ⟨150, 20, 30, 0, 10⟩]).2
    ⟨1, 150, some 1, 1⟩ (by decide) ⟨1, 300, 1, some 1, some 0⟩ (by decide) rfl
    (by decide) rfl
